import Mathlib

/-!
Shallow embedding of the C-MORP decision kernel:
`src/guard_rail.py` (constraint registry and validator) and
`src/solver_bridge.py` (greedy dispatch planner).

Python floats are modelled as rationals (the arithmetic involved is
field arithmetic, exact on ℚ); Python dicts as association lists;
code that can raise is modelled with `Option` (`none` = exception).
-/

set_option maxHeartbeats 1000000

/-! ## Guard rail: data model (`guard_rail.py`) -/

/-- `ConstraintType` enum from `guard_rail.py`. -/
inductive ConstraintType where
  | voltage
  | current
  | power
  | soc
  | temperature
  | frequency
deriving DecidableEq

/-- Which bound a violation message reports. -/
inductive BoundKind where
  | belowMin
  | aboveMax
deriving DecidableEq

/-- Structured content of the violation message f-string:
`"{name} below minimum: {value} < {min}"` / `"{name} exceeds maximum: {value} > {max}"`. -/
structure ViolationMsg where
  name : String
  value : ℚ
  bound : ℚ
  kind : BoundKind
deriving DecidableEq

/-- `Constraint` dataclass. -/
structure Constraint where
  name : String
  type : ConstraintType
  min_value : ℚ
  max_value : ℚ
  critical : Bool
deriving DecidableEq

/-- `Constraint.validate`: value below min or above max is invalid, with message. -/
def Constraint.validate (c : Constraint) (value : ℚ) : Bool × Option ViolationMsg :=
  if value < c.min_value then (false, some ⟨c.name, value, c.min_value, BoundKind.belowMin⟩)
  else if value > c.max_value then (false, some ⟨c.name, value, c.max_value, BoundKind.aboveMax⟩)
  else (true, none)

/-- A blocked-action record appended on a critical violation. -/
structure BlockRecord where
  component : String
  constraint : String
  value : ℚ
  error : ViolationMsg
deriving DecidableEq

/-- `GuardRail` mutable state: constraint dict, violation counter, blocked list. -/
structure GuardRail where
  constraints : List (String × List Constraint)
  violation_count : ℕ
  blocked_actions : List BlockRecord
deriving DecidableEq

/-- Replace the binding of `k` in the association list (insertion order preserved,
new keys appended at the end) — Python dict assignment `d[k] = v`. -/
def dict_set (d : List (String × List Constraint)) (k : String) (v : List Constraint) :
    List (String × List Constraint) :=
  match d with
  | [] => [(k, v)]
  | (k', v') :: rest => if k' = k then (k, v) :: rest else (k', v') :: dict_set rest k v

/-- `GuardRail.add_constraint`: ensure the component key exists, then append. -/
def GuardRail.add_constraint (g : GuardRail) (component : String) (c : Constraint) : GuardRail :=
  let cur := (g.constraints.lookup component).getD []
  { g with constraints := dict_set g.constraints component (cur ++ [c]) }

/-- `GuardRail._map_parameter`: constraint type → parameter key. -/
def map_parameter : ConstraintType → String
  | ConstraintType.voltage => "voltage"
  | ConstraintType.current => "current"
  | ConstraintType.power => "power"
  | ConstraintType.soc => "soc"
  | ConstraintType.temperature => "temperature"
  | ConstraintType.frequency => "frequency"

/-- Loop body of `GuardRail.validate_action`: skip a constraint whose parameter key
is absent, otherwise validate; on a violation append the message, and if the
constraint is critical bump the counter and append a block record. -/
def validate_step (component : String) (params : List (String × ℚ))
    (acc : GuardRail × List ViolationMsg) (c : Constraint) : GuardRail × List ViolationMsg :=
  match params.lookup (map_parameter c.type) with
  | none => acc
  | some v =>
    match c.validate v with
    | (true, _) => acc
    | (false, none) => acc
    | (false, some msg) =>
      let g := acc.1
      let viols := acc.2 ++ [msg]
      if c.critical then
        ({ g with
            violation_count := g.violation_count + 1
            blocked_actions := g.blocked_actions ++ [⟨component, c.name, v, msg⟩] }, viols)
      else (g, viols)

/-- `GuardRail.validate_action`: returns the updated guard state, validity flag and
violation list; a component with no registered constraints is always valid. -/
def GuardRail.validate_action (g : GuardRail) (component : String)
    (params : List (String × ℚ)) : GuardRail × Bool × List ViolationMsg :=
  match g.constraints.lookup component with
  | none => (g, true, [])
  | some cs =>
    let r := cs.foldl (validate_step component params) (g, [])
    (r.1, r.2.isEmpty, r.2)

/-- `GuardRail.__init__` + `_initialize` of the standard constraints. -/
def GuardRail.init : GuardRail :=
  let g : GuardRail := ⟨[], 0, []⟩
  let g := g.add_constraint "battery" ⟨"Battery SOC", ConstraintType.soc, 10, 95, true⟩
  let g := g.add_constraint "battery" ⟨"Battery Current", ConstraintType.current, -200, 200, true⟩
  let g := g.add_constraint "grid" ⟨"Grid Voltage", ConstraintType.voltage, 380, 420, true⟩
  let g := g.add_constraint "grid" ⟨"Grid Frequency", ConstraintType.frequency,
    (99:ℚ)/2, (101:ℚ)/2, true⟩
  g.add_constraint "solar" ⟨"PV Temperature", ConstraintType.temperature, -20, 85, false⟩

/-- Per-component entry of a health report. -/
structure ComponentReport where
  valid : Bool
  violations : List ViolationMsg
deriving DecidableEq

/-- `check_system_health` report (warnings is `len(violations) - critical`, an integer
that the Python code can drive negative). -/
structure HealthReport where
  healthy : Bool
  components : List (String × ComponentReport)
  critical_violations : ℕ
  warnings : ℤ
deriving DecidableEq

/-- Loop body of `GuardRail.check_system_health`: validate a component, record its
report; when invalid, re-count critical constraints with absent parameters
defaulted to 0 and accumulate the two counters. -/
def health_step (acc : GuardRail × HealthReport) (entry : String × List (String × ℚ)) :
    GuardRail × HealthReport :=
  let g := acc.1
  let report := acc.2
  let component := entry.1
  let state := entry.2
  let r := g.validate_action component state
  let g' := r.1
  let is_valid := r.2.1
  let violations := r.2.2
  let report := { report with
    components := report.components ++ [(component, ⟨is_valid, violations⟩)] }
  if is_valid then (g', report)
  else
    let critical := ((g'.constraints.lookup component).getD []).countP (fun c =>
      c.critical && !(c.validate ((state.lookup (map_parameter c.type)).getD 0)).1)
    (g', { report with
      healthy := false
      critical_violations := report.critical_violations + critical
      warnings := report.warnings + (violations.length : ℤ) - (critical : ℤ) })

/-- `GuardRail.check_system_health`. -/
def GuardRail.check_system_health (g : GuardRail)
    (system_state : List (String × List (String × ℚ))) : GuardRail × HealthReport :=
  system_state.foldl health_step (g, ⟨true, [], 0, 0⟩)

/-- `get_statistics` snapshot. -/
structure Statistics where
  total_constraints : ℕ
  violation_count : ℕ
  blocked_actions_count : ℕ
  components_monitored : ℕ
  recent_blocks : List BlockRecord
deriving DecidableEq

/-- `GuardRail.get_statistics`. -/
def GuardRail.get_statistics (g : GuardRail) : Statistics :=
  { total_constraints := (g.constraints.map (fun p => p.2.length)).sum
    violation_count := g.violation_count
    blocked_actions_count := g.blocked_actions.length
    components_monitored := g.constraints.length
    recent_blocks :=
      if g.blocked_actions.isEmpty then []
      else g.blocked_actions.drop (g.blocked_actions.length - 10) }

/-! ## Solver bridge (`solver_bridge.py`) -/

/-- `SolverType` enum. -/
inductive SolverType where
  | cvxpy
  | pyomo
  | ortools
  | simple
deriving DecidableEq

/-- `OptimizationResult` dataclass. -/
structure OptimizationResult where
  success : Bool
  objective_value : ℚ
  battery_schedule : List ℚ
  grid_schedule : List ℚ
  solve_time_ms : ℚ
  solver_used : SolverType
  iterations : ℕ
  cost_savings_pct : ℚ
deriving DecidableEq

/-- `SolverBridge` mutable counters. -/
structure SolverBridge where
  solve_count : ℕ
  total_solve_time : ℚ
  failed_solves : ℕ
deriving DecidableEq

/-- `_generate_default_tariff`: time-of-use prices 8.5 / 6.5 / 4.5 by hour of day. -/
def generate_default_tariff (hours : ℕ) : List ℚ :=
  (List.range hours).map (fun hour =>
    let hour_of_day := hour % 24
    if (6 ≤ hour_of_day ∧ hour_of_day < 9) ∨ (18 ≤ hour_of_day ∧ hour_of_day < 22) then
      (85:ℚ)/10
    else if 9 ≤ hour_of_day ∧ hour_of_day < 18 then (65:ℚ)/10
    else (45:ℚ)/10)

/-- `_pad_forecast`: truncate when long enough, else repeat the last element.
`forecast[-1]` on an empty list raises IndexError, modelled as `none`. -/
def pad_forecast (forecast : List ℚ) (target_length : ℕ) : Option (List ℚ) :=
  if target_length ≤ forecast.length then some (forecast.take target_length)
  else
    match forecast.getLast? with
    | none => none
    | some last => some (forecast ++ List.replicate (target_length - forecast.length) last)

/-- Running state of the greedy heuristic loop. -/
structure HeurState where
  battery_schedule : List ℚ
  grid_schedule : List ℚ
  soc : ℚ
  total_cost : ℚ
  baseline_cost : ℚ
deriving DecidableEq

/-- One iteration of `_solve_simple_heuristic`'s hour loop. Out-of-range list
accesses and Python's `ZeroDivisionError` (division by a zero battery
capacity) are `none`. -/
def heur_step (solar load tariff : List ℚ) (battery_capacity : ℚ)
    (s : HeurState) (hour : ℕ) : Option HeurState :=
  match solar.get? hour, load.get? hour, tariff.get? hour with
  | some sol, some ld, some t =>
  let net_power := sol - ld
  let baseline := s.baseline_cost + max 0 (-net_power) * t
  let max_charge_rate := battery_capacity * ((5:ℚ)/10)
  let max_discharge_rate := battery_capacity * ((5:ℚ)/10)
  let efficiency := (95:ℚ)/100
  if net_power > 0 then
    if s.soc < 90 then
      let charge_amount := min net_power (min max_charge_rate ((90 - s.soc) / 100 * battery_capacity))
      if battery_capacity = 0 then none
      else some { battery_schedule := s.battery_schedule ++ [charge_amount]
                  grid_schedule := s.grid_schedule ++ [net_power - charge_amount]
                  soc := s.soc + charge_amount / battery_capacity * 100 * efficiency
                  total_cost := s.total_cost
                  baseline_cost := baseline }
    else
      some { s with
        battery_schedule := s.battery_schedule ++ [0]
        grid_schedule := s.grid_schedule ++ [net_power]
        baseline_cost := baseline }
  else
    let deficit := |net_power|
    let avg_tariff := tariff.sum / (tariff.length : ℚ)
    if t > avg_tariff * ((12:ℚ)/10) ∧ s.soc > 20 then
      let discharge_amount :=
        min deficit (min max_discharge_rate ((s.soc - 20) / 100 * battery_capacity))
      if battery_capacity = 0 then none
      else some { battery_schedule := s.battery_schedule ++ [-discharge_amount]
                  grid_schedule := s.grid_schedule ++ [deficit - discharge_amount]
                  soc := s.soc - discharge_amount / battery_capacity * 100 / efficiency
                  total_cost := s.total_cost + (deficit - discharge_amount) * t
                  baseline_cost := baseline }
    else
      some { s with
        battery_schedule := s.battery_schedule ++ [0]
        grid_schedule := s.grid_schedule ++ [deficit]
        total_cost := s.total_cost + deficit * t
        baseline_cost := baseline }
  | _, _, _ => none

/-- `_solve_simple_heuristic`: fold the hour loop over `range horizon`, then
derive the savings percentage. -/
def solve_simple_heuristic (solar load : List ℚ) (battery_capacity initial_soc : ℚ)
    (tariff : List ℚ) (horizon : ℕ) : Option OptimizationResult :=
  match (List.range horizon).foldlM (heur_step solar load tariff battery_capacity)
      ⟨[], [], initial_soc, 0, 0⟩ with
  | none => none
  | some s =>
    let cost_savings_pct :=
      if s.baseline_cost > 0 then (s.baseline_cost - s.total_cost) / s.baseline_cost * 100 else 0
    some { success := true
           objective_value := s.total_cost
           battery_schedule := s.battery_schedule
           grid_schedule := s.grid_schedule
           solve_time_ms := 0
           solver_used := SolverType.simple
           iterations := horizon
           cost_savings_pct := cost_savings_pct }

/-- `SolverBridge.optimize_energy_schedule`. The wall-clock measurement is the
opaque input `elapsed_ms`. Padding happens before the `try` block, so a padding
failure propagates (`none`); a heuristic failure is caught and turned into the
`success = false` fallback. -/
def SolverBridge.optimize_energy_schedule (b : SolverBridge)
    (solar_forecast load_forecast : List ℚ) (battery_capacity initial_soc : ℚ)
    (grid_tariff : Option (List ℚ)) (horizon_hours : ℕ) (elapsed_ms : ℚ) :
    Option (SolverBridge × OptimizationResult) :=
  let tariff := grid_tariff.getD (generate_default_tariff horizon_hours)
  match pad_forecast solar_forecast horizon_hours, pad_forecast load_forecast horizon_hours with
  | some solar, some load =>
    match solve_simple_heuristic solar load battery_capacity initial_soc tariff horizon_hours with
    | some result =>
      some ({ b with
              solve_count := b.solve_count + 1
              total_solve_time := b.total_solve_time + elapsed_ms },
            { result with solve_time_ms := elapsed_ms, solver_used := SolverType.simple })
    | none =>
      some ({ b with failed_solves := b.failed_solves + 1 },
            { success := false
              objective_value := 0
              battery_schedule := List.replicate horizon_hours 0
              grid_schedule := load
              solve_time_ms := elapsed_ms
              solver_used := SolverType.simple
              iterations := 0
              cost_savings_pct := 0 })
  | _, _ => none

/-! ## Derived definitions used to state and prove the properties -/

/-- The violation message a single constraint contributes in `validate_action`
(`none` when the parameter key is absent or the value is in range). -/
def msg_of (params : List (String × ℚ)) (c : Constraint) : Option ViolationMsg :=
  match params.lookup (map_parameter c.type) with
  | none => none
  | some v =>
    match c.validate v with
    | (true, _) => none
    | (false, none) => none
    | (false, some msg) => some msg

/-- The block record a single constraint contributes in `validate_action`
(`none` unless the constraint is applicable, violated and critical). -/
def block_of (component : String) (params : List (String × ℚ)) (c : Constraint) :
    Option BlockRecord :=
  match params.lookup (map_parameter c.type) with
  | none => none
  | some v =>
    match c.validate v with
    | (true, _) => none
    | (false, none) => none
    | (false, some msg) => if c.critical then some ⟨component, c.name, v, msg⟩ else none

/-- All violation messages `validate_action` reports for a constraint list. -/
def expected_msgs (params : List (String × ℚ)) (cs : List Constraint) : List ViolationMsg :=
  cs.filterMap (msg_of params)

/-- All block records `validate_action` appends for a constraint list. -/
def expected_blocks (component : String) (params : List (String × ℚ))
    (cs : List Constraint) : List BlockRecord :=
  cs.filterMap (block_of component params)

/-- Violation messages of one component against a constraint table. -/
def comp_msgs (d : List (String × List Constraint)) (component : String)
    (params : List (String × ℚ)) : List ViolationMsg :=
  expected_msgs params ((d.lookup component).getD [])

/-- The `check_system_health` re-count of critical constraints that fail with
absent parameters defaulted to `0`. -/
def critical_tally (d : List (String × List Constraint)) (component : String)
    (state : List (String × ℚ)) : ℕ :=
  ((d.lookup component).getD []).countP (fun c =>
    c.critical && !(c.validate ((state.lookup (map_parameter c.type)).getD 0)).1)

/-- One externally visible guard-rail call. -/
inductive GuardOp where
  | validate (component : String) (params : List (String × ℚ))
  | health (system_state : List (String × List (String × ℚ)))

/-- State transition of one guard-rail call. -/
def apply_op (g : GuardRail) : GuardOp → GuardRail
  | GuardOp.validate component params => (g.validate_action component params).1
  | GuardOp.health system_state => (g.check_system_health system_state).1

/-- Guard-rail state after a call sequence on a fresh instance. -/
def run_ops (ops : List GuardOp) : GuardRail :=
  ops.foldl apply_op GuardRail.init

/-- SOC values carried forward by the heuristic loop, one per completed hour
(the trace stops where the Python loop would raise). -/
def soc_trace_aux (solar load tariff : List ℚ) (battery_capacity : ℚ) :
    HeurState → List ℕ → List ℚ
  | _, [] => []
  | s, hour :: hs =>
    match heur_step solar load tariff battery_capacity s hour with
    | none => []
    | some s' => s'.soc :: soc_trace_aux solar load tariff battery_capacity s' hs

/-- SOC trace of a full `_solve_simple_heuristic` run. -/
def soc_trace (solar load tariff : List ℚ) (battery_capacity initial_soc : ℚ)
    (horizon : ℕ) : List ℚ :=
  soc_trace_aux solar load tariff battery_capacity ⟨[], [], initial_soc, 0, 0⟩
    (List.range horizon)

/-- Indexing with default `0`, mirroring `forecast[hour]` on in-range accesses. -/
def qidx (l : List ℚ) (n : ℕ) : ℚ :=
  (l.get? n).getD 0

/-- The no-battery baseline: each hour's deficit billed at that hour's tariff. -/
def baseline_cost_calc (solar load tariff : List ℚ) (horizon : ℕ) : ℚ :=
  ((List.range horizon).map (fun hour =>
    max 0 (-(qidx solar hour - qidx load hour)) * qidx tariff hour)).sum

/-! ## Guard-rail lemmas -/

lemma validate_step_eq (component : String) (params : List (String × ℚ))
    (acc : GuardRail × List ViolationMsg) (c : Constraint) :
    validate_step component params acc c =
      ((match block_of component params c with
        | none => acc.1
        | some b =>
          { acc.1 with
              violation_count := acc.1.violation_count + 1
              blocked_actions := acc.1.blocked_actions ++ [b] }),
        acc.2 ++ (msg_of params c).toList) := by
  unfold validate_step block_of msg_of
  rcases h1 : params.lookup (map_parameter c.type) with _ | v
  · simp
  · rcases h2 : c.validate v with ⟨b, m⟩
    rcases b <;> rcases m with _ | msg <;> rcases hc : c.critical <;> simp [h2, hc]

lemma foldl_validate_eq (component : String) (params : List (String × ℚ))
    (cs : List Constraint) :
    ∀ (g : GuardRail) (vs : List ViolationMsg),
    cs.foldl (validate_step component params) (g, vs) =
      ({ g with
          violation_count := g.violation_count + (expected_blocks component params cs).length
          blocked_actions := g.blocked_actions ++ expected_blocks component params cs },
        vs ++ expected_msgs params cs) := by
  induction cs with
  | nil =>
    intro g vs
    simp [expected_blocks, expected_msgs]
  | cons c cs ih =>
    intro g vs
    rw [List.foldl_cons, validate_step_eq, ih]
    simp only [expected_blocks, expected_msgs, List.filterMap_cons]
    rcases hb : block_of component params c with _ | b <;>
      rcases hm : msg_of params c with _ | m <;>
      cases g <;>
      simp [List.append_assoc] <;>
      omega

lemma validate_action_eq (g : GuardRail) (component : String) (params : List (String × ℚ)) :
    g.validate_action component params =
      ({ g with
          violation_count := g.violation_count +
            (expected_blocks component params ((g.constraints.lookup component).getD [])).length
          blocked_actions := g.blocked_actions ++
            expected_blocks component params ((g.constraints.lookup component).getD []) },
        (comp_msgs g.constraints component params).isEmpty,
        comp_msgs g.constraints component params) := by
  unfold GuardRail.validate_action comp_msgs
  rcases h : g.constraints.lookup component with _ | cs
  · cases g
    simp [expected_blocks, expected_msgs]
  · simp [foldl_validate_eq]

lemma lookup_dict_set (d : List (String × List Constraint)) (k : String)
    (v : List Constraint) : (dict_set d k v).lookup k = some v := by
  induction d with
  | nil => simp [dict_set, List.lookup]
  | cons p rest ih =>
    rcases p with ⟨k', v'⟩
    by_cases hk : k' = k
    · simp [dict_set, hk, List.lookup]
    · have hb : (k == k') = false := beq_eq_false_iff_ne.mpr (Ne.symm hk)
      simp [dict_set, hk, List.lookup, ih, hb]

lemma validate_fst_iff (c : Constraint) (v : ℚ) :
    (c.validate v).1 = true ↔ c.min_value ≤ v ∧ v ≤ c.max_value := by
  unfold Constraint.validate
  split_ifs with h1 h2
  · simp only [Bool.false_eq_true, false_iff]
    rintro ⟨ha, -⟩
    exact absurd h1 (not_lt.mpr ha)
  · simp only [Bool.false_eq_true, false_iff]
    rintro ⟨-, hb⟩
    exact absurd h2 (not_lt.mpr hb)
  · simp [le_of_not_lt h1, le_of_not_lt h2]

lemma validate_none_fst (c : Constraint) (v : ℚ) :
    (c.validate v).2 = none → (c.validate v).1 = true := by
  unfold Constraint.validate
  split_ifs <;> simp

lemma msg_of_none_iff (params : List (String × ℚ)) (c : Constraint) :
    msg_of params c = none ↔
      ∀ v : ℚ, params.lookup (map_parameter c.type) = some v →
        c.min_value ≤ v ∧ v ≤ c.max_value := by
  unfold msg_of
  rcases h : params.lookup (map_parameter c.type) with _ | v
  · simp
  · have hx := validate_fst_iff c v
    have hshape := validate_none_fst c v
    rcases h2 : c.validate v with ⟨b, m⟩
    rw [h2] at hx hshape
    rcases b <;> rcases m with _ | msg <;> simp_all

/-- C1 counterexample: registering a constraint named "Battery SOC" under
"battery" when one already exists leaves TWO constraints of that name in the
registry, and `validate_action` still evaluates the old bounds (soc = 5 is
accepted by the new bounds [0, 100] yet the action is rejected). -/
theorem C1_counterexample :
    ((((GuardRail.init.add_constraint "battery"
        ⟨"Battery SOC", ConstraintType.soc, 0, 100, true⟩).constraints.lookup
          "battery").getD []).countP (fun c => c.name == "Battery SOC") = 2) ∧
    ((GuardRail.init.add_constraint "battery"
        ⟨"Battery SOC", ConstraintType.soc, 0, 100, true⟩).validate_action "battery"
          [("soc", 5)]).2.1 = false := by
  decide

/-- C1 amended: `add_constraint` appends under the component key — after
re-registration the registry holds the previous constraint records (same name
included) followed by the new one, all of which `validate_action` evaluates. -/
theorem C1_amended (g : GuardRail) (component : String) (c : Constraint) :
    ((g.add_constraint component c).constraints.lookup component) =
      some ((g.constraints.lookup component).getD [] ++ [c]) := by
  unfold GuardRail.add_constraint
  exact lookup_dict_set _ _ _

/-- C5: `Constraint.validate` accepts exactly the values in `[min_value, max_value]`
(boundaries valid); `validate_action` is valid iff every registered constraint
whose mapped parameter key is present is satisfied (absent keys are skipped);
a component with no registered constraints yields `(true, [])` unchanged. -/
theorem C5_validation_semantics :
    (∀ (c : Constraint) (v : ℚ),
      (c.validate v).1 = true ↔ c.min_value ≤ v ∧ v ≤ c.max_value) ∧
    (∀ (g : GuardRail) (component : String) (params : List (String × ℚ)),
      (g.validate_action component params).2.1 = true ↔
        ∀ c ∈ (g.constraints.lookup component).getD [], ∀ v : ℚ,
          params.lookup (map_parameter c.type) = some v →
            c.min_value ≤ v ∧ v ≤ c.max_value) ∧
    (∀ (g : GuardRail) (component : String) (params : List (String × ℚ)),
      g.constraints.lookup component = none →
        g.validate_action component params = (g, true, [])) := by
  refine ⟨validate_fst_iff, ?_, ?_⟩
  · intro g component params
    rw [validate_action_eq]
    show (comp_msgs g.constraints component params).isEmpty = true ↔ _
    rw [List.isEmpty_iff]
    unfold comp_msgs expected_msgs
    rw [List.filterMap_eq_nil_iff]
    exact forall₂_congr (fun c _ => msg_of_none_iff params c)
  · intro g component params h
    unfold GuardRail.validate_action
    simp [h]

/-- C5 witness at a concrete boundary input. -/
theorem C5_witness :
    (Constraint.validate ⟨"Battery SOC", ConstraintType.soc, 10, 95, true⟩ 10).1 = true ↔
      (10:ℚ) ≤ 10 ∧ (10:ℚ) ≤ 95 :=
  C5_validation_semantics.1 ⟨"Battery SOC", ConstraintType.soc, 10, 95, true⟩ 10

/-- C6: every critical violation found by `validate_action` bumps the counter and
appends exactly the corresponding block record; on the default constraints,
`validate_action("battery", {soc: 5, current: -150})` is invalid with one
violation naming "Battery SOC" (5 below minimum 10) and the critical counter
grows by exactly 1, with one block record appended. -/
theorem C6_critical_accounting :
    (∀ (g : GuardRail) (component : String) (params : List (String × ℚ)),
      (g.validate_action component params).1.violation_count =
        g.violation_count +
          (expected_blocks component params ((g.constraints.lookup component).getD [])).length ∧
      (g.validate_action component params).1.blocked_actions =
        g.blocked_actions ++
          expected_blocks component params ((g.constraints.lookup component).getD [])) ∧
    (GuardRail.init.validate_action "battery" [("soc", 5), ("current", -150)]).2.1 = false ∧
    (GuardRail.init.validate_action "battery" [("soc", 5), ("current", -150)]).2.2 =
      [⟨"Battery SOC", 5, 10, BoundKind.belowMin⟩] ∧
    (GuardRail.init.validate_action "battery" [("soc", 5), ("current", -150)]).1.violation_count =
      GuardRail.init.violation_count + 1 ∧
    (GuardRail.init.validate_action "battery" [("soc", 5), ("current", -150)]).1.blocked_actions =
      [⟨"battery", "Battery SOC", 5, ⟨"Battery SOC", 5, 10, BoundKind.belowMin⟩⟩] := by
  refine ⟨?_, by decide, by decide, by decide, by decide⟩
  intro g component params
  rw [validate_action_eq]
  exact ⟨rfl, rfl⟩

lemma validate_action_constraints (g : GuardRail) (component : String)
    (params : List (String × ℚ)) :
    (g.validate_action component params).1.constraints = g.constraints := by
  rw [validate_action_eq]

lemma validate_action_snd (g : GuardRail) (component : String)
    (params : List (String × ℚ)) :
    (g.validate_action component params).2 =
      ((comp_msgs g.constraints component params).isEmpty,
        comp_msgs g.constraints component params) := by
  rw [validate_action_eq]

lemma validate_action_counter_inv (g : GuardRail) (component : String)
    (params : List (String × ℚ))
    (h : g.violation_count = g.blocked_actions.length) :
    (g.validate_action component params).1.violation_count =
      (g.validate_action component params).1.blocked_actions.length := by
  rw [validate_action_eq]
  simp [h]

lemma health_step_fst (acc : GuardRail × HealthReport)
    (entry : String × List (String × ℚ)) :
    (health_step acc entry).1 = (acc.1.validate_action entry.1 entry.2).1 := by
  unfold health_step
  dsimp only
  split <;> rfl

lemma health_foldl_counter_inv (ss : List (String × List (String × ℚ))) :
    ∀ (g : GuardRail) (rep : HealthReport),
    g.violation_count = g.blocked_actions.length →
    (ss.foldl health_step (g, rep)).1.violation_count =
      (ss.foldl health_step (g, rep)).1.blocked_actions.length := by
  induction ss with
  | nil => intro g rep h; exact h
  | cons e ss ih =>
    intro g rep h
    rw [List.foldl_cons]
    rcases hse : health_step (g, rep) e with ⟨g', rep'⟩
    have hfst := health_step_fst (g, rep) e
    rw [hse] at hfst
    simp only [] at hfst
    exact ih g' rep' (by rw [hfst]; exact validate_action_counter_inv g e.1 e.2 h)

lemma apply_op_counter_inv (g : GuardRail) (op : GuardOp)
    (h : g.violation_count = g.blocked_actions.length) :
    (apply_op g op).violation_count = (apply_op g op).blocked_actions.length := by
  cases op with
  | validate component params => exact validate_action_counter_inv g component params h
  | health ss => exact health_foldl_counter_inv ss g _ h

lemma run_ops_counter_inv (ops : List GuardOp) :
    ∀ g : GuardRail, g.violation_count = g.blocked_actions.length →
    (ops.foldl apply_op g).violation_count = (ops.foldl apply_op g).blocked_actions.length := by
  induction ops with
  | nil => intro g h; exact h
  | cons op ops ih =>
    intro g h
    rw [List.foldl_cons]
    exact ih (apply_op g op) (apply_op_counter_inv g op h)

/-- C10: after any sequence of `validate_action` / `check_system_health` calls on
a fresh guard rail, the violation counter equals the number of blocked-action
records, and `get_statistics` reports the two as equal. -/
theorem C10_counter_invariant (ops : List GuardOp) :
    (run_ops ops).violation_count = (run_ops ops).blocked_actions.length ∧
    (run_ops ops).get_statistics.violation_count =
      (run_ops ops).get_statistics.blocked_actions_count := by
  have h := run_ops_counter_inv ops GuardRail.init (by decide)
  exact ⟨h, h⟩

/-- C10 witness: a concrete call sequence containing a critical violation. -/
theorem C10_witness :
    (run_ops [GuardOp.validate "battery" [("soc", 5)],
      GuardOp.health [("grid", [("voltage", 430)])]]).violation_count =
      (run_ops [GuardOp.validate "battery" [("soc", 5)],
        GuardOp.health [("grid", [("voltage", 430)])]]).blocked_actions.length ∧
    (run_ops [GuardOp.validate "battery" [("soc", 5)],
      GuardOp.health [("grid", [("voltage", 430)])]]).get_statistics.violation_count =
      (run_ops [GuardOp.validate "battery" [("soc", 5)],
        GuardOp.health [("grid", [("voltage", 430)])]]).get_statistics.blocked_actions_count :=
  C10_counter_invariant [GuardOp.validate "battery" [("soc", 5)],
    GuardOp.health [("grid", [("voltage", 430)])]]

lemma validate_action_valid_eq (g : GuardRail) (component : String)
    (params : List (String × ℚ)) :
    (g.validate_action component params).2.1 =
      (comp_msgs g.constraints component params).isEmpty := by
  rw [validate_action_snd]

lemma health_step_snd_valid (g : GuardRail) (rep : HealthReport)
    (e : String × List (String × ℚ))
    (h : (comp_msgs g.constraints e.1 e.2).isEmpty = true) :
    (health_step (g, rep) e).2 =
      { rep with components := rep.components ++
          [(e.1, ⟨true, comp_msgs g.constraints e.1 e.2⟩)] } := by
  unfold health_step
  dsimp only
  rw [validate_action_snd]
  dsimp only
  rw [h]
  simp

lemma health_step_snd_invalid (g : GuardRail) (rep : HealthReport)
    (e : String × List (String × ℚ))
    (h : (comp_msgs g.constraints e.1 e.2).isEmpty = false) :
    (health_step (g, rep) e).2 =
      { healthy := false
        components := rep.components ++
          [(e.1, ⟨false, comp_msgs g.constraints e.1 e.2⟩)]
        critical_violations := rep.critical_violations + critical_tally g.constraints e.1 e.2
        warnings := rep.warnings + ((comp_msgs g.constraints e.1 e.2).length : ℤ)
          - (critical_tally g.constraints e.1 e.2 : ℤ) } := by
  unfold health_step
  dsimp only
  rw [validate_action_snd, validate_action_constraints]
  dsimp only
  rw [h]
  simp [critical_tally]

lemma health_foldl_report (d : List (String × List Constraint))
    (ss : List (String × List (String × ℚ))) :
    ∀ (g : GuardRail) (rep : HealthReport), g.constraints = d →
    (ss.foldl health_step (g, rep)).2.healthy =
        (rep.healthy && ss.all (fun e => (comp_msgs d e.1 e.2).isEmpty)) ∧
    (ss.foldl health_step (g, rep)).2.critical_violations =
        rep.critical_violations + (ss.map (fun e =>
          if (comp_msgs d e.1 e.2).isEmpty then 0 else critical_tally d e.1 e.2)).sum ∧
    (ss.foldl health_step (g, rep)).2.warnings =
        rep.warnings + (ss.map (fun e =>
          if (comp_msgs d e.1 e.2).isEmpty then (0:ℤ)
          else ((comp_msgs d e.1 e.2).length : ℤ) - (critical_tally d e.1 e.2 : ℤ))).sum := by
  induction ss with
  | nil =>
    intro g rep hgd
    simp
  | cons e ss ih =>
    intro g rep hgd
    rw [List.foldl_cons]
    have hg1 : ((g.validate_action e.1 e.2).1).constraints = d := by
      rw [validate_action_constraints]; exact hgd
    rcases hval : (comp_msgs d e.1 e.2).isEmpty with _ | _
    · have hv' : (comp_msgs g.constraints e.1 e.2).isEmpty = false := by rw [hgd]; exact hval
      have hpair : health_step (g, rep) e =
          ((g.validate_action e.1 e.2).1,
            { healthy := false
              components := rep.components ++
                [(e.1, ⟨false, comp_msgs g.constraints e.1 e.2⟩)]
              critical_violations := rep.critical_violations + critical_tally g.constraints e.1 e.2
              warnings := rep.warnings + ((comp_msgs g.constraints e.1 e.2).length : ℤ)
                - (critical_tally g.constraints e.1 e.2 : ℤ) }) := by
        rw [show health_step (g, rep) e =
          ((health_step (g, rep) e).1, (health_step (g, rep) e).2) from rfl]
        rw [health_step_fst, health_step_snd_invalid g rep e hv']
      rw [hpair]
      obtain ⟨ih1, ih2, ih3⟩ := ih ((g.validate_action e.1 e.2).1) _ hg1
      have hne : ¬((comp_msgs d e.1 e.2).isEmpty = true) := by simp [hval]
      refine ⟨?_, ?_, ?_⟩
      · rw [ih1]; simp [hval]
      · rw [ih2]
        dsimp only
        rw [List.map_cons, List.sum_cons, if_neg hne, hgd]
        omega
      · rw [ih3]
        dsimp only
        rw [List.map_cons, List.sum_cons, if_neg hne, hgd]
        ring
    · have hv' : (comp_msgs g.constraints e.1 e.2).isEmpty = true := by rw [hgd]; exact hval
      have hpair : health_step (g, rep) e =
          ((g.validate_action e.1 e.2).1,
            { rep with components := rep.components ++
                [(e.1, ⟨true, comp_msgs g.constraints e.1 e.2⟩)] }) := by
        rw [show health_step (g, rep) e =
          ((health_step (g, rep) e).1, (health_step (g, rep) e).2) from rfl]
        rw [health_step_fst, health_step_snd_valid g rep e hv']
      rw [hpair]
      obtain ⟨ih1, ih2, ih3⟩ := ih ((g.validate_action e.1 e.2).1) _ hg1
      refine ⟨?_, ?_, ?_⟩
      · rw [ih1]; simp [hval]
      · rw [ih2]
        dsimp only
        rw [List.map_cons, List.sum_cons, if_pos hval]
        omega
      · rw [ih3]
        dsimp only
        rw [List.map_cons, List.sum_cons, if_pos hval]
        ring

/-- C4 counterexample: for `{"grid": {voltage: 430}}` the single reported
violation is the (critical) Grid Voltage one, so the count of non-critical
violations is 0, yet the warnings counter comes out as -1 (the critical
re-count with frequency defaulted to 0 exceeds the reported violations). -/
theorem C4_counterexample :
    (GuardRail.init.check_system_health [("grid", [("voltage", 430)])]).2.warnings = -1 ∧
    (GuardRail.init.check_system_health [("grid", [("voltage", 430)])]).2.components =
      [("grid", ⟨false, [⟨"Grid Voltage", 430, 420, BoundKind.aboveMax⟩]⟩)] := by
  with_unfolding_all decide

/-- C4 amended: `healthy` is true iff `validate_action` accepts every component;
`critical_violations` sums, over invalid components, the critical constraints
failing with absent parameters defaulted to 0; `warnings` sums, over invalid
components, the number of reported violations minus that critical tally (an
integer that can be negative, not the non-critical violation count); and the
grid example from the claim yields unhealthy with at least one critical hit. -/
theorem C4_amended :
    (∀ (g : GuardRail) (ss : List (String × List (String × ℚ))),
      ((g.check_system_health ss).2.healthy = true ↔
        ∀ e ∈ ss, (g.validate_action e.1 e.2).2.1 = true) ∧
      (g.check_system_health ss).2.critical_violations =
        (ss.map (fun e => if (g.validate_action e.1 e.2).2.1 then 0
          else critical_tally g.constraints e.1 e.2)).sum ∧
      (g.check_system_health ss).2.warnings =
        (ss.map (fun e => if (g.validate_action e.1 e.2).2.1 then (0:ℤ)
          else (((g.validate_action e.1 e.2).2.2).length : ℤ) -
            (critical_tally g.constraints e.1 e.2 : ℤ))).sum) ∧
    (GuardRail.init.check_system_health
      [("grid", [("voltage", 430), ("frequency", 50)])]).2.healthy = false ∧
    1 ≤ (GuardRail.init.check_system_health
      [("grid", [("voltage", 430), ("frequency", 50)])]).2.critical_violations := by
  refine ⟨?_, by with_unfolding_all decide, by with_unfolding_all decide⟩
  intro g ss
  obtain ⟨h1, h2, h3⟩ :=
    health_foldl_report g.constraints ss g ⟨true, [], 0, 0⟩ rfl
  unfold GuardRail.check_system_health
  refine ⟨?_, ?_, ?_⟩
  · rw [h1]
    simp only [Bool.true_and, List.all_eq_true, validate_action_valid_eq]
  · rw [h2]
    simp only [validate_action_valid_eq, Nat.zero_add]
  · rw [h3]
    simp only [validate_action_valid_eq, validate_action_snd, Int.zero_add, zero_add]

/-- C4 witness: the counter characterization evaluated on a concrete state. -/
theorem C4_witness :
    (GuardRail.init.check_system_health [("grid", [("voltage", 430)])]).2.critical_violations =
      ([("grid", [("voltage", (430:ℚ))])].map
        (fun e => if (GuardRail.init.validate_action e.1 e.2).2.1 then 0
          else critical_tally GuardRail.init.constraints e.1 e.2)).sum :=
  (C4_amended.1 GuardRail.init [("grid", [("voltage", 430)])]).2.1

/-! ## Solver lemmas -/

lemma pad_forecast_spec (f : List ℚ) (n : ℕ) (hf : f ≠ []) :
    pad_forecast f n =
      some (if n ≤ f.length then f.take n
            else f ++ List.replicate (n - f.length) (f.getLastD 0)) := by
  unfold pad_forecast
  split_ifs with h
  · rfl
  · rcases hl : f.getLast? with _ | x
    · exact absurd (List.getLast?_eq_none_iff.mp hl) hf
    · rw [List.getLastD_eq_getLast?, hl]
      rfl

lemma pad_forecast_length (f : List ℚ) (n : ℕ) (l : List ℚ)
    (h : pad_forecast f n = some l) : l.length = n := by
  unfold pad_forecast at h
  split_ifs at h with hle
  · simp only [Option.some.injEq] at h
    subst h
    simp [List.length_take]
    omega
  · rcases hl : f.getLast? with _ | x <;> rw [hl] at h
    · simp at h
    · simp only [Option.some.injEq] at h
      subst h
      simp
      omega

lemma heur_step_soc (solar load tariff : List ℚ) (cap : ℚ) (s s' : HeurState) (hour : ℕ)
    (hcap : 0 < cap) (h0 : 0 ≤ s.soc) (h1 : s.soc ≤ 100)
    (hstep : heur_step solar load tariff cap s hour = some s') :
    0 ≤ s'.soc ∧ s'.soc ≤ 100 := by
  unfold heur_step at hstep
  rcases hsol : solar.get? hour with _ | sol <;> rw [hsol] at hstep
  · simp at hstep
  rcases hld : load.get? hour with _ | ld <;> rw [hld] at hstep
  · simp at hstep
  rcases ht : tariff.get? hour with _ | t <;> rw [ht] at hstep
  · simp at hstep
  dsimp only at hstep
  by_cases hnet : sol - ld > 0
  · rw [if_pos hnet] at hstep
    by_cases hsoc90 : s.soc < 90
    · rw [if_pos hsoc90] at hstep
      by_cases hz : cap = 0
      · rw [if_pos hz] at hstep
        simp at hstep
      · rw [if_neg hz] at hstep
        simp only [Option.some.injEq] at hstep
        subst hstep
        dsimp only
        have hhead : (0:ℚ) < (90 - s.soc) / 100 * cap := by
          have hpos : (0:ℚ) < 90 - s.soc := by linarith
          positivity
        have hhalf : (0:ℚ) < cap * ((5:ℚ)/10) := by positivity
        have hApos : 0 < min (sol - ld) (min (cap * ((5:ℚ)/10)) ((90 - s.soc) / 100 * cap)) :=
          lt_min hnet (lt_min hhalf hhead)
        have hAle : min (sol - ld) (min (cap * ((5:ℚ)/10)) ((90 - s.soc) / 100 * cap)) ≤
            (90 - s.soc) / 100 * cap :=
          le_trans (min_le_right _ _) (min_le_right _ _)
        have hdiv : min (sol - ld) (min (cap * ((5:ℚ)/10)) ((90 - s.soc) / 100 * cap)) / cap ≤
            (90 - s.soc) / 100 := (div_le_iff₀ hcap).mpr hAle
        have hdiv0 : 0 ≤ min (sol - ld) (min (cap * ((5:ℚ)/10)) ((90 - s.soc) / 100 * cap)) / cap :=
          div_nonneg hApos.le hcap.le
        constructor <;> nlinarith [hdiv, hdiv0]
    · rw [if_neg hsoc90] at hstep
      simp only [Option.some.injEq] at hstep
      subst hstep
      exact ⟨h0, h1⟩
  · rw [if_neg hnet] at hstep
    by_cases hcond : t > tariff.sum / (tariff.length : ℚ) * ((12:ℚ)/10) ∧ s.soc > 20
    · rw [if_pos hcond] at hstep
      by_cases hz : cap = 0
      · rw [if_pos hz] at hstep
        simp at hstep
      · rw [if_neg hz] at hstep
        simp only [Option.some.injEq] at hstep
        subst hstep
        dsimp only
        have hsoc20 : (20:ℚ) < s.soc := hcond.2
        have havail : (0:ℚ) < (s.soc - 20) / 100 * cap := by
          have hpos : (0:ℚ) < s.soc - 20 := by linarith
          positivity
        have hhalf : (0:ℚ) < cap * ((5:ℚ)/10) := by positivity
        have hD0 : 0 ≤ min |sol - ld| (min (cap * ((5:ℚ)/10)) ((s.soc - 20) / 100 * cap)) :=
          le_min (abs_nonneg _) (le_min hhalf.le havail.le)
        have hDle : min |sol - ld| (min (cap * ((5:ℚ)/10)) ((s.soc - 20) / 100 * cap)) ≤
            (s.soc - 20) / 100 * cap :=
          le_trans (min_le_right _ _) (min_le_right _ _)
        have hdiv : min |sol - ld| (min (cap * ((5:ℚ)/10)) ((s.soc - 20) / 100 * cap)) / cap ≤
            (s.soc - 20) / 100 := (div_le_iff₀ hcap).mpr hDle
        have hdiv0 : 0 ≤ min |sol - ld| (min (cap * ((5:ℚ)/10)) ((s.soc - 20) / 100 * cap)) / cap :=
          div_nonneg hD0 hcap.le
        constructor <;> nlinarith [hdiv, hdiv0]
    · rw [if_neg hcond] at hstep
      simp only [Option.some.injEq] at hstep
      subst hstep
      exact ⟨h0, h1⟩

lemma soc_trace_aux_bounds (solar load tariff : List ℚ) (cap : ℚ) (hcap : 0 < cap) :
    ∀ (hs : List ℕ) (s : HeurState), 0 ≤ s.soc → s.soc ≤ 100 →
    ∀ x ∈ soc_trace_aux solar load tariff cap s hs, 0 ≤ x ∧ x ≤ 100 := by
  intro hs
  induction hs with
  | nil =>
    intro s h0 h1 x hx
    simp [soc_trace_aux] at hx
  | cons hour hs ih =>
    intro s h0 h1 x hx
    unfold soc_trace_aux at hx
    rcases hstep : heur_step solar load tariff cap s hour with _ | s1 <;> rw [hstep] at hx
    · simp at hx
    · obtain ⟨hs0, hs1⟩ := heur_step_soc solar load tariff cap s s1 hour hcap h0 h1 hstep
      rcases List.mem_cons.mp hx with hx | hx
      · subst hx; exact ⟨hs0, hs1⟩
      · exact ih s1 hs0 hs1 x hx

/-- C3: with positive capacity and an initial SOC in `[0, 100]`, every SOC value
the heuristic carries forward (one per simulated hour) stays in `[0, 100]`,
for any forecasts and any tariff. -/
theorem C3_soc_invariant (solar load tariff : List ℚ) (cap soc0 : ℚ) (horizon : ℕ)
    (hcap : 0 < cap) (h0 : 0 ≤ soc0) (h1 : soc0 ≤ 100) :
    ∀ x ∈ soc_trace solar load tariff cap soc0 horizon, 0 ≤ x ∧ x ≤ 100 :=
  soc_trace_aux_bounds solar load tariff cap hcap (List.range horizon)
    ⟨[], [], soc0, 0, 0⟩ h0 h1

/-- C3 witness: one charging hour (solar 5, load 0, capacity 10, SOC 50) lands on
SOC 88, inside `[0, 100]`. -/
theorem C3_witness : 0 ≤ (88:ℚ) ∧ (88:ℚ) ≤ 100 :=
  C3_soc_invariant [5] [0] [1] 10 50 1 (by norm_num) (by norm_num) (by norm_num) 88
    (by with_unfolding_all decide)

lemma heur_step_lengths (solar load tariff : List ℚ) (cap : ℚ) (s s' : HeurState) (hour : ℕ)
    (hstep : heur_step solar load tariff cap s hour = some s') :
    s'.battery_schedule.length = s.battery_schedule.length + 1 ∧
    s'.grid_schedule.length = s.grid_schedule.length + 1 := by
  unfold heur_step at hstep
  rcases hsol : solar.get? hour with _ | sol <;> rw [hsol] at hstep
  · simp at hstep
  rcases hld : load.get? hour with _ | ld <;> rw [hld] at hstep
  · simp at hstep
  rcases ht : tariff.get? hour with _ | t <;> rw [ht] at hstep
  · simp at hstep
  dsimp only at hstep
  by_cases hnet : sol - ld > 0
  · rw [if_pos hnet] at hstep
    by_cases hsoc90 : s.soc < 90
    · rw [if_pos hsoc90] at hstep
      by_cases hz : cap = 0
      · rw [if_pos hz] at hstep; simp at hstep
      · rw [if_neg hz] at hstep
        simp only [Option.some.injEq] at hstep
        subst hstep
        simp
    · rw [if_neg hsoc90] at hstep
      simp only [Option.some.injEq] at hstep
      subst hstep
      simp
  · rw [if_neg hnet] at hstep
    by_cases hcond : t > tariff.sum / (tariff.length : ℚ) * ((12:ℚ)/10) ∧ s.soc > 20
    · rw [if_pos hcond] at hstep
      by_cases hz : cap = 0
      · rw [if_pos hz] at hstep; simp at hstep
      · rw [if_neg hz] at hstep
        simp only [Option.some.injEq] at hstep
        subst hstep
        simp
    · rw [if_neg hcond] at hstep
      simp only [Option.some.injEq] at hstep
      subst hstep
      simp

lemma foldlM_lengths (solar load tariff : List ℚ) (cap : ℚ) :
    ∀ (hs : List ℕ) (s s' : HeurState),
    hs.foldlM (heur_step solar load tariff cap) s = some s' →
    s'.battery_schedule.length = s.battery_schedule.length + hs.length ∧
    s'.grid_schedule.length = s.grid_schedule.length + hs.length := by
  intro hs
  induction hs with
  | nil =>
    intro s s' h
    simp only [List.foldlM_nil] at h
    rcases h
    simp
  | cons hour hs ih =>
    intro s s' h
    rw [List.foldlM_cons] at h
    rcases hstep : heur_step solar load tariff cap s hour with _ | s1 <;> rw [hstep] at h
    · simp only [Option.bind_eq_bind, Option.none_bind] at h
      exact Option.noConfusion h
    · simp only [Option.bind_eq_bind, Option.some_bind] at h
      obtain ⟨l1, l2⟩ := heur_step_lengths solar load tariff cap s s1 hour hstep
      obtain ⟨l3, l4⟩ := ih s1 s' h
      constructor <;> simp [l1, l2, l3, l4] <;> omega

lemma solve_simple_heuristic_elim (solar load : List ℚ) (cap soc : ℚ) (tariff : List ℚ)
    (horizon : ℕ) (r : OptimizationResult)
    (h : solve_simple_heuristic solar load cap soc tariff horizon = some r) :
    ∃ s : HeurState,
      (List.range horizon).foldlM (heur_step solar load tariff cap) ⟨[], [], soc, 0, 0⟩ =
        some s ∧
      r = { success := true
            objective_value := s.total_cost
            battery_schedule := s.battery_schedule
            grid_schedule := s.grid_schedule
            solve_time_ms := 0
            solver_used := SolverType.simple
            iterations := horizon
            cost_savings_pct := if s.baseline_cost > 0 then
              (s.baseline_cost - s.total_cost) / s.baseline_cost * 100 else 0 } := by
  unfold solve_simple_heuristic at h
  rcases hf : (List.range horizon).foldlM (heur_step solar load tariff cap)
      ⟨[], [], soc, 0, 0⟩ with _ | s <;> rw [hf] at h
  · exact Option.noConfusion h
  · dsimp only at h
    simp only [Option.some.injEq] at h
    exact ⟨s, rfl, h.symm⟩

/-- C7 counterexample: with an empty load forecast and a positive horizon, the
padding raises (IndexError on `forecast[-1]`) before the `try` block, so
`optimize_energy_schedule` returns no result at all, not schedules of length 2. -/
theorem C7_counterexample :
    SolverBridge.optimize_energy_schedule ⟨0, 0, 0⟩ [1] [] 500 50 none 2 0 = none := by
  with_unfolding_all decide

/-- C7 amended: whenever both forecasts are nonempty, `optimize_energy_schedule`
returns schedules of length exactly the horizon (on the success path and on the
fallback path alike), and padding means truncate-to-horizon or extend by
repeating the last element. -/
theorem C7_amended :
    (∀ (b : SolverBridge) (solar load : List ℚ) (cap soc : ℚ)
        (tariff : Option (List ℚ)) (h : ℕ) (t : ℚ), solar ≠ [] → load ≠ [] →
      ∃ b' r, SolverBridge.optimize_energy_schedule b solar load cap soc tariff h t =
          some (b', r) ∧
        r.battery_schedule.length = h ∧ r.grid_schedule.length = h) ∧
    (∀ (f : List ℚ) (h : ℕ), f ≠ [] →
      pad_forecast f h = some (if h ≤ f.length then f.take h
        else f ++ List.replicate (h - f.length) (f.getLastD 0))) := by
  constructor
  · intro b solar load cap soc tariff h t hs hl
    obtain ⟨ps, hps⟩ : ∃ ps, pad_forecast solar h = some ps := ⟨_, pad_forecast_spec solar h hs⟩
    obtain ⟨pl, hpl⟩ : ∃ pl, pad_forecast load h = some pl := ⟨_, pad_forecast_spec load h hl⟩
    have hpll := pad_forecast_length load h pl hpl
    unfold SolverBridge.optimize_energy_schedule
    rw [hps, hpl]
    dsimp only
    rcases hheur : solve_simple_heuristic ps pl cap soc
        (tariff.getD (generate_default_tariff h)) h with _ | result
    · exact ⟨_, _, rfl, by simp, hpll⟩
    · obtain ⟨s, hfold, hr⟩ := solve_simple_heuristic_elim ps pl cap soc
        (tariff.getD (generate_default_tariff h)) h result hheur
      obtain ⟨lb, lg⟩ := foldlM_lengths ps pl (tariff.getD (generate_default_tariff h)) cap
        (List.range h) ⟨[], [], soc, 0, 0⟩ s hfold
      refine ⟨_, _, rfl, ?_, ?_⟩
      · rw [hr]
        dsimp only
        rw [lb]
        simp
      · rw [hr]
        dsimp only
        rw [lg]
        simp
  · intro f h hf
    exact pad_forecast_spec f h hf

/-- C7 witness: concrete instantiation with a forecast shorter than the horizon. -/
theorem C7_witness :
    ∃ b' r, SolverBridge.optimize_energy_schedule ⟨0, 0, 0⟩ [1, 2] [3] 500 50 none 5 0 =
        some (b', r) ∧
      r.battery_schedule.length = 5 ∧ r.grid_schedule.length = 5 :=
  C7_amended.1 ⟨0, 0, 0⟩ [1, 2] [3] 500 50 none 5 0 (by simp) (by simp)

/-- C2 counterexample: an empty solar forecast with horizon 1 makes the padding
step raise before the `try` block, and the exception propagates to the caller
(no result, not even the `success = false` fallback). -/
theorem C2_counterexample :
    SolverBridge.optimize_energy_schedule ⟨0, 0, 0⟩ [] [1] 500 50 none 1 0 = none := by
  with_unfolding_all decide

/-- C2 amended: whenever both forecasts are nonempty, `optimize_energy_schedule`
always returns a result: either the heuristic result with `success = true`, or —
only if the inner heuristic computation raises — the fallback with
`success = false`, an all-zero battery schedule, the padded load forecast as the
grid schedule, and objective 0. -/
theorem C2_amended (b : SolverBridge) (solar load : List ℚ) (cap soc : ℚ)
    (tariff : Option (List ℚ)) (h : ℕ) (t : ℚ) (hs : solar ≠ []) (hl : load ≠ []) :
    ∃ b' r pl, pad_forecast load h = some pl ∧
      SolverBridge.optimize_energy_schedule b solar load cap soc tariff h t =
        some (b', r) ∧
      (r.success = true ∨
        (r.success = false ∧ r.battery_schedule = List.replicate h 0 ∧
          r.grid_schedule = pl ∧ r.objective_value = 0)) := by
  obtain ⟨ps, hps⟩ : ∃ ps, pad_forecast solar h = some ps := ⟨_, pad_forecast_spec solar h hs⟩
  obtain ⟨pl, hpl⟩ : ∃ pl, pad_forecast load h = some pl := ⟨_, pad_forecast_spec load h hl⟩
  unfold SolverBridge.optimize_energy_schedule
  rw [hps, hpl]
  dsimp only
  rcases hheur : solve_simple_heuristic ps pl cap soc
      (tariff.getD (generate_default_tariff h)) h with _ | result
  · exact ⟨_, _, pl, rfl, rfl, Or.inr ⟨rfl, rfl, rfl, rfl⟩⟩
  · obtain ⟨s, hfold, hr⟩ := solve_simple_heuristic_elim ps pl cap soc
      (tariff.getD (generate_default_tariff h)) h result hheur
    refine ⟨_, _, pl, rfl, rfl, Or.inl ?_⟩
    rw [hr]

/-- C2 witness: concrete nonempty forecasts; the optimizer returns a result. -/
theorem C2_witness :
    ∃ b' r pl, pad_forecast [5] 2 = some pl ∧
      SolverBridge.optimize_energy_schedule ⟨0, 0, 0⟩ [0] [5] 500 50 none 2 0 =
        some (b', r) ∧
      (r.success = true ∨
        (r.success = false ∧ r.battery_schedule = List.replicate 2 0 ∧
          r.grid_schedule = pl ∧ r.objective_value = 0)) :=
  C2_amended ⟨0, 0, 0⟩ [0] [5] 500 50 none 2 0 (by simp) (by simp)

lemma heur_step_baseline (solar load tariff : List ℚ) (cap : ℚ) (s s' : HeurState) (hour : ℕ)
    (hstep : heur_step solar load tariff cap s hour = some s') :
    s'.baseline_cost = s.baseline_cost +
      max 0 (-(qidx solar hour - qidx load hour)) * qidx tariff hour := by
  unfold heur_step at hstep
  rcases hsol : solar.get? hour with _ | sol <;> rw [hsol] at hstep
  · simp at hstep
  rcases hld : load.get? hour with _ | ld <;> rw [hld] at hstep
  · simp at hstep
  rcases ht : tariff.get? hour with _ | t <;> rw [ht] at hstep
  · simp at hstep
  dsimp only at hstep
  have hq1 : qidx solar hour = sol := by unfold qidx; rw [hsol]; rfl
  have hq2 : qidx load hour = ld := by unfold qidx; rw [hld]; rfl
  have hq3 : qidx tariff hour = t := by unfold qidx; rw [ht]; rfl
  rw [hq1, hq2, hq3]
  by_cases hnet : sol - ld > 0
  · rw [if_pos hnet] at hstep
    by_cases hsoc90 : s.soc < 90
    · rw [if_pos hsoc90] at hstep
      by_cases hz : cap = 0
      · rw [if_pos hz] at hstep; simp at hstep
      · rw [if_neg hz] at hstep
        simp only [Option.some.injEq] at hstep
        subst hstep
        rfl
    · rw [if_neg hsoc90] at hstep
      simp only [Option.some.injEq] at hstep
      subst hstep
      rfl
  · rw [if_neg hnet] at hstep
    by_cases hcond : t > tariff.sum / (tariff.length : ℚ) * ((12:ℚ)/10) ∧ s.soc > 20
    · rw [if_pos hcond] at hstep
      by_cases hz : cap = 0
      · rw [if_pos hz] at hstep; simp at hstep
      · rw [if_neg hz] at hstep
        simp only [Option.some.injEq] at hstep
        subst hstep
        rfl
    · rw [if_neg hcond] at hstep
      simp only [Option.some.injEq] at hstep
      subst hstep
      rfl

lemma foldlM_baseline (solar load tariff : List ℚ) (cap : ℚ) :
    ∀ (hs : List ℕ) (s s' : HeurState),
    hs.foldlM (heur_step solar load tariff cap) s = some s' →
    s'.baseline_cost = s.baseline_cost + (hs.map (fun hour =>
      max 0 (-(qidx solar hour - qidx load hour)) * qidx tariff hour)).sum := by
  intro hs
  induction hs with
  | nil =>
    intro s s' h
    simp only [List.foldlM_nil] at h
    rcases h
    simp
  | cons hour hs ih =>
    intro s s' h
    rw [List.foldlM_cons] at h
    rcases hstep : heur_step solar load tariff cap s hour with _ | s1 <;> rw [hstep] at h
    · simp only [Option.bind_eq_bind, Option.none_bind] at h
      exact Option.noConfusion h
    · simp only [Option.bind_eq_bind, Option.some_bind] at h
      have hb1 := heur_step_baseline solar load tariff cap s s1 hour hstep
      have hb2 := ih s1 s' h
      rw [hb2, hb1, List.map_cons, List.sum_cons]
      ring

/-- C8: on every successful heuristic run, the savings percentage is
`(baseline - total) / baseline * 100` when the deficit-only no-battery baseline
is strictly positive, and exactly 0 when that baseline is not positive (in
particular when it is 0). -/
theorem C8_cost_savings (solar load : List ℚ) (cap soc : ℚ) (tariff : List ℚ)
    (horizon : ℕ) (r : OptimizationResult)
    (h : solve_simple_heuristic solar load cap soc tariff horizon = some r) :
    r.cost_savings_pct =
      if baseline_cost_calc solar load tariff horizon > 0 then
        (baseline_cost_calc solar load tariff horizon - r.objective_value) /
          baseline_cost_calc solar load tariff horizon * 100
      else 0 := by
  obtain ⟨s, hfold, hr⟩ := solve_simple_heuristic_elim solar load cap soc tariff horizon r h
  have hb := foldlM_baseline solar load tariff cap (List.range horizon)
    ⟨[], [], soc, 0, 0⟩ s hfold
  have hbc : s.baseline_cost = baseline_cost_calc solar load tariff horizon := by
    rw [hb]
    unfold baseline_cost_calc
    ring
  subst hr
  dsimp only
  rw [hbc]

/-- C8 witness: one deficit hour (solar 0, load 5, tariff 2) — baseline 10,
total 10, savings 0. -/
theorem C8_witness :
    (OptimizationResult.mk true 10 [0] [5] 0 SolverType.simple 1 0).cost_savings_pct =
      if baseline_cost_calc [0] [5] [2] 1 > 0 then
        (baseline_cost_calc [0] [5] [2] 1 -
          (OptimizationResult.mk true 10 [0] [5] 0 SolverType.simple 1 0).objective_value) /
          baseline_cost_calc [0] [5] [2] 1 * 100
      else 0 :=
  C8_cost_savings [0] [5] 100 50 [2] 1
    (OptimizationResult.mk true 10 [0] [5] 0 SolverType.simple 1 0)
    (by with_unfolding_all decide)

/-- C9: two calls with identical inputs return identical battery schedule, grid
schedule and objective value, regardless of the bridge's mutable counters and of
the measured wall-clock time (only `solve_time_ms` can differ). -/
theorem C9_deterministic (b₁ b₂ : SolverBridge) (solar load : List ℚ) (cap soc : ℚ)
    (tariff : Option (List ℚ)) (h : ℕ) (t₁ t₂ : ℚ) :
    Option.map (fun p => (p.2.battery_schedule, p.2.grid_schedule, p.2.objective_value))
        (SolverBridge.optimize_energy_schedule b₁ solar load cap soc tariff h t₁) =
    Option.map (fun p => (p.2.battery_schedule, p.2.grid_schedule, p.2.objective_value))
        (SolverBridge.optimize_energy_schedule b₂ solar load cap soc tariff h t₂) := by
  unfold SolverBridge.optimize_energy_schedule
  dsimp only
  rcases hps : pad_forecast solar h with _ | ps
  · rfl
  rcases hpl : pad_forecast load h with _ | pl
  · rfl
  dsimp only
  rcases hheur : solve_simple_heuristic ps pl cap soc
      (tariff.getD (generate_default_tariff h)) h with _ | result <;> rfl
